import Mathlib

/-!
Verification of the RPi coincidence trigger controller
(`rpi_coincidence_control.py`).

The controller is embedded shallowly:

* `ControllerState` holds the mutable attributes of `RPiCoincidenceController`
  that the setters read or write.
* Each Python setter becomes a function `ControllerState → args →
  Except PyErr (ControllerState × List ByteWrite)`: the returned state is the
  object state after the call, the list records the `(data, mode)` arguments of
  every `_write_byte` call in order, and an exception raised before any
  mutation is `Except.error` (the caller then still sees the old state and no
  write has happened).
* `write_byte_gpio` separately embeds `_write_byte` at the GPIO level as the
  list of backend actions it performs (one 12-pin output, sleeps, strobe pin
  writes).
* Machine integers follow the source: Python ints are `Int`; `np.uint8 x` is
  `uint8 x = x % 256`.
-/

namespace RPiCoincidence

/-- Python exception kinds raised by the embedded code paths. -/
inductive PyErr where
  | valueError
  | keyError
  deriving DecidableEq, Repr

/-- The mutable attributes of `RPiCoincidenceController` used by the setters
and getters (`target_bucket`, `window`, `laser_trig`, `ring_rf`,
`offset_fine`, `offset_coarse`, `current_phase_counter`). -/
structure ControllerState where
  target_bucket : Int
  window : Int
  laser_trig : Int
  ring_rf : Int
  offset_fine : Int
  offset_coarse : Int
  current_phase_counter : Int
  deriving DecidableEq, Repr

/-- The state right after `__init__` zeroes the attributes (before the initial
setter calls). -/
def initState : ControllerState :=
  { target_bucket := 0, window := 0, laser_trig := 0, ring_rf := 0,
    offset_fine := 0, offset_coarse := 0, current_phase_counter := 0 }

/-- Association list of `self.mode_dict` as built in `__init__`. -/
def mode_assoc : List (String × Nat) :=
  [("inc_phase", 1), ("dec_phase", 2), ("quadrature", 3), ("pause_trig", 4),
   ("bucket", 5), ("window", 6), ("laser_trig_source", 7), ("ring_rf_source", 8)]

/-- Dictionary lookup in `self.mode_dict`. -/
def mode_dict (k : String) : Option Nat :=
  mode_assoc.lookup k

/-- Python `self.mode_dict[k]`: the value, or a `KeyError` when `k` is not a
key. -/
def dictGet (k : String) : Except PyErr Nat :=
  match mode_dict k with
  | some v => Except.ok v
  | none => Except.error PyErr.keyError

/-- One `_write_byte(data, mode)` call: the raw `data` argument and the mode
code. -/
abbrev ByteWrite := Int × Nat

/-- Numpy `np.uint8 x`: reduction modulo 256 (Python/numpy wraparound). -/
def uint8 (x : Int) : Int := x % 256

/-- Embedding of `np.unpackbits(np.uint8 d)[::-1]`: the 8 bits of `d`,
least-significant-first. -/
def unpackbitsLE (d : Nat) : List Nat :=
  (List.range 8).map (fun b => d / 2 ^ b % 2)

/-- The taps `self.delay_bin`: the 8 delay tap weights in picoseconds. -/
def delay_bin : List Nat := [16, 77, 140, 166, 231, 292, 343, 424]

/-- Embedding of `(np.unpackbits(np.uint8 d)[::-1] * self.delay_bin).sum()`: one entry of
the delay table. -/
def delayOf (d : Nat) : Nat :=
  (List.zipWith (fun x y => x * y) (unpackbitsLE d) delay_bin).sum

/-- The table `self.delay_array` of the 256 achievable window delays, built in
`__init__`. -/
def delay_array : List Nat :=
  (List.range 256).map delayOf

/-- Embedding of `np.argmin` over the values `f 0, …` at the indices in `l`, seeded with
index `b`: the running best index is replaced only on a strictly smaller
value, so the first minimal index wins. -/
def argminFold {α : Type} [LinearOrder α] (f : Nat → α) (l : List Nat) (b : Nat) : Nat :=
  l.foldl (fun best i => if f i < f best then i else best) b

/-- The scan key `np.abs(self.delay_array - delay)` at index `i`. -/
def windowKey (delay : Int) (i : Nat) : Int :=
  |(delay_array.getD i 0 : Int) - delay|

/-- The index `np.abs(self.delay_array - delay).argmin()`. -/
def window_index (delay : Int) : Nat :=
  argminFold (windowKey delay) (List.range 256) 0

/-- Embedding of `set_bucket(target_bucket)`. -/
def set_bucket (s : ControllerState) (target_bucket : Int) :
    Except PyErr (ControllerState × List ByteWrite) := do
  let offset := target_bucket * 4 + s.offset_coarse
  if offset > 255 then
    throw PyErr.valueError
  else
    let m ← dictGet "bucket"
    pure ({ s with target_bucket := target_bucket }, [(offset, m)])

/-- Embedding of `get_bucket()`. -/
def get_bucket (s : ControllerState) : Int :=
  s.target_bucket

/-- Embedding of `write_window_raw(delay_bin)`: looks up `self.mode_dict["delay"]` before
calling `_write_byte`. -/
def write_window_raw (s : ControllerState) (v : Int) :
    Except PyErr (ControllerState × List ByteWrite) := do
  let m ← dictGet "delay"
  pure (s, [(v, m)])

/-- Embedding of `set_window(delay)`: nearest-table-entry quantisation, write the table
index under the `window` mode code, store the achieved delay. The requested
delay is modelled as an exact integer. -/
def set_window (s : ControllerState) (delay : Int) :
    Except PyErr (ControllerState × List ByteWrite) := do
  let ind := window_index delay
  let delay_min : Int := (delay_array.getD ind 0 : Int)
  let m ← dictGet "window"
  pure ({ s with window := delay_min }, [((ind : Int), m)])

/-- Embedding of `get_window()`. -/
def get_window (s : ControllerState) : Int :=
  s.window

/-- Tests whether `needle` matches the front of the second list (helper for Python's
substring test). -/
def leadMatch : List Char → List Char → Bool
  | [], _ => true
  | _ :: _, [] => false
  | c :: cs, d :: ds => c == d && leadMatch cs ds

/-- Python `needle in hay` on strings: `needle` occurs contiguously in
`hay`. -/
def strContains (needle : List Char) : List Char → Bool
  | [] => needle.isEmpty
  | c :: cs => leadMatch needle (c :: cs) || strContains needle cs

/-- Python `s.lower()` (ASCII letters, which covers the enum strings in
scope). -/
def pyLower (s : List Char) : List Char :=
  s.map Char.toLower

/-- Embedding of `set_laser_trig(source)`. -/
def set_laser_trig (s : ControllerState) (source : List Char) :
    Except PyErr (ControllerState × List ByteWrite) := do
  let lt : Int := if strContains "coin".data (pyLower source) then 1 else 0
  let m ← dictGet "laser_trig_source"
  pure ({ s with laser_trig := lt }, [(lt, m)])

/-- Embedding of `get_laser_trig()`. -/
def get_laser_trig (s : ControllerState) : String :=
  if s.laser_trig = 0 then "MRF" else "COINCIDENCE"

/-- Embedding of `set_offset_fine(offset)`: one-sided range check, then the pause/inc-dec
write sequence; returns `self.offset_fine`. -/
def set_offset_fine (s : ControllerState) (offset : Int) :
    Except PyErr (ControllerState × List ByteWrite × Int) := do
  let delta_phase := offset - s.current_phase_counter
  if offset < 0 ∨ delta_phase > 255 then
    throw PyErr.valueError
  else
    let mp ← dictGet "pause_trig"
    let w2 : ByteWrite ←
      if delta_phase > 0 then do
        let mi ← dictGet "inc_phase"
        pure (uint8 delta_phase, mi)
      else do
        let md ← dictGet "dec_phase"
        pure (uint8 (-delta_phase), md)
    pure ({ s with offset_fine := offset, current_phase_counter := offset },
      [(uint8 1, mp), w2], offset)

/-- Embedding of `get_offset_fine()`. -/
def get_offset_fine (s : ControllerState) : Int :=
  s.offset_fine

/-- Embedding of `set_offset_coarse(offset_coarse)`: range-checks the combined byte but
writes the bare `offset_coarse` under the `bucket` mode code. -/
def set_offset_coarse (s : ControllerState) (offset_coarse : Int) :
    Except PyErr (ControllerState × List ByteWrite) := do
  let offset := offset_coarse + s.target_bucket * 4
  if offset > 255 then
    throw PyErr.valueError
  else
    let m ← dictGet "bucket"
    pure ({ s with offset_coarse := offset_coarse }, [(offset_coarse, m)])

/-- Embedding of `get_offset_coarse()`. -/
def get_offset_coarse (s : ControllerState) : Int :=
  s.offset_coarse

/-- The pin assignment built in `__init__` (`self.pin_dict`): eight data pins,
four mode pins, one strobe pin. -/
structure PinConfig where
  d0 : Nat
  d1 : Nat
  d2 : Nat
  d3 : Nat
  d4 : Nat
  d5 : Nat
  d6 : Nat
  d7 : Nat
  mode0 : Nat
  mode1 : Nat
  mode2 : Nat
  mode3 : Nat
  strobe : Nat
  deriving DecidableEq, Repr

/-- The default pin numbers of `__init__` (`data_pins=None`,
`mode_pins=[32, 22, 18, 16]`, `strobe_pin=12`). -/
def default_pins : PinConfig :=
  { d0 := 29, d1 := 31, d2 := 33, d3 := 35, d4 := 37, d5 := 40, d6 := 38,
    d7 := 36, mode0 := 32, mode1 := 22, mode2 := 18, mode3 := 16, strobe := 12 }

/-- The list `self.pin_list`: the data pins `d0..d7` followed by the mode pins
`mode0..mode3`, in that order. -/
def pin_list (p : PinConfig) : List Nat :=
  [p.d0, p.d1, p.d2, p.d3, p.d4, p.d5, p.d6, p.d7,
   p.mode0, p.mode1, p.mode2, p.mode3]

/-- One action of `_write_byte` on the GPIO backend: a simultaneous output on
a pin list, an output on a single pin, or a `time.sleep(self.strobe_time)`. -/
inductive GpioEvent where
  | output (pins : List Nat) (levels : List Nat)
  | outputPin (pin : Nat) (level : Nat)
  | sleep
  deriving DecidableEq, Repr

/-- Embedding of `_write_byte(data, mode)` as the ordered list of GPIO backend actions it
performs. -/
def write_byte_gpio (p : PinConfig) (data mode : Int) : List GpioEvent :=
  let data_list := unpackbitsLE (uint8 data).toNat
  let mode_list := (unpackbitsLE (uint8 mode).toNat).take 4
  let output_list := data_list ++ mode_list
  [GpioEvent.output (pin_list p) output_list,
   GpioEvent.sleep,
   GpioEvent.outputPin p.strobe 1,
   GpioEvent.sleep,
   GpioEvent.outputPin p.strobe 0]

/-! ### Helper lemmas: normal forms of the setters -/

theorem dictGet_bucket : dictGet "bucket" = Except.ok 5 := rfl

theorem dictGet_window : dictGet "window" = Except.ok 6 := rfl

theorem dictGet_laser : dictGet "laser_trig_source" = Except.ok 7 := rfl

theorem dictGet_pause : dictGet "pause_trig" = Except.ok 4 := rfl

theorem dictGet_inc : dictGet "inc_phase" = Except.ok 1 := rfl

theorem dictGet_dec : dictGet "dec_phase" = Except.ok 2 := rfl

theorem set_bucket_eq (s : ControllerState) (b : Int) :
    set_bucket s b =
      if b * 4 + s.offset_coarse > 255 then Except.error PyErr.valueError
      else Except.ok ({ s with target_bucket := b }, [(b * 4 + s.offset_coarse, 5)]) := rfl

theorem set_offset_coarse_eq (s : ControllerState) (c : Int) :
    set_offset_coarse s c =
      if c + s.target_bucket * 4 > 255 then Except.error PyErr.valueError
      else Except.ok ({ s with offset_coarse := c }, [(c, 5)]) := rfl

theorem set_window_eq (s : ControllerState) (delay : Int) :
    set_window s delay =
      Except.ok ({ s with window := (delay_array.getD (window_index delay) 0 : Int) },
        [((window_index delay : Int), 6)]) := rfl

theorem set_laser_trig_eq (s : ControllerState) (source : List Char) :
    set_laser_trig s source =
      Except.ok ({ s with
          laser_trig := if strContains "coin".data (pyLower source) then 1 else 0 },
        [((if strContains "coin".data (pyLower source) then 1 else 0 : Int), 7)]) := rfl

theorem set_offset_fine_eq (s : ControllerState) (offset : Int) :
    set_offset_fine s offset =
      if offset < 0 ∨ offset - s.current_phase_counter > 255 then
        Except.error PyErr.valueError
      else
        Except.ok ({ s with offset_fine := offset, current_phase_counter := offset },
          [(1, 4),
           if offset - s.current_phase_counter > 0 then
             (uint8 (offset - s.current_phase_counter), 1)
           else
             (uint8 (-(offset - s.current_phase_counter)), 2)], offset) := by
  unfold set_offset_fine
  by_cases h : offset < 0 ∨ offset - s.current_phase_counter > 255
  · rw [if_pos h, if_pos h]; rfl
  · rw [if_neg h, if_neg h]
    by_cases hd : offset - s.current_phase_counter > 0
    · simp only [if_pos hd]; rfl
    · simp only [if_neg hd]; rfl

theorem bitMulWeight (x w : Nat) : x % 2 * w = if x % 2 = 1 then w else 0 := by
  rcases Nat.mod_two_eq_zero_or_one x with h | h <;> simp [h]

theorem delayOf_testBit (d : Nat) :
    delayOf d = ∑ b in Finset.range 8, (if d.testBit b then delay_bin.getD b 0 else 0) := by
  have hu : unpackbitsLE d =
      [d / 1 % 2, d / 2 % 2, d / 4 % 2, d / 8 % 2, d / 16 % 2, d / 32 % 2,
       d / 64 % 2, d / 128 % 2] := rfl
  simp only [delayOf, hu, delay_bin, Finset.sum_range_succ, Finset.sum_range_zero,
    Nat.testBit_to_div_mod, List.zipWith, List.sum_cons, List.sum_nil,
    decide_eq_true_eq, bitMulWeight]
  norm_num [List.getD]
  omega

/-- Entries of the delay table below index 256 are given by `delayOf`. -/
theorem delay_array_getD (i : Nat) (hi : i < 256) :
    delay_array.getD i 0 = delayOf i := by
  have hlen : i < delay_array.length := by
    simpa [delay_array] using hi
  rw [List.getD_eq_getElem _ _ hlen]
  simp [delay_array]

/-- Claim C4: the delay table built at construction has exactly 256 entries,
and entry `i` is the sum of the taps `delay_bin` over the bits set in `i`
(bit 0 ↦ 16 ps, …, bit 7 ↦ 424 ps). -/
theorem C4_delay_table :
    delay_array.length = 256 ∧
    ∀ i, i < 256 →
      delay_array.getD i 0 =
        ∑ b in Finset.range 8, (if Nat.testBit i b then delay_bin.getD b 0 else 0) := by
  constructor
  · simp [delay_array]
  · intro i hi
    rw [delay_array_getD i hi, delayOf_testBit]

theorem C4_delay_table_witness :
    255 < 256 ∧
      delay_array.getD 255 0 =
        ∑ b in Finset.range 8, (if Nat.testBit 255 b then delay_bin.getD b 0 else 0) :=
  ⟨by decide, C4_delay_table.2 255 (by decide)⟩

/-- Claim C6: when `b*4 + offset_coarse` exceeds 255, `set_bucket b` raises a
`ValueError`; no write is recorded and no new state is produced, so the caller
keeps the prior state (and `get_bucket` of it is the prior target bucket). -/
theorem C6_set_bucket_range_error (s : ControllerState) (b : Int)
    (h : b * 4 + s.offset_coarse > 255) :
    set_bucket s b = Except.error PyErr.valueError := by
  rw [set_bucket_eq, if_pos h]

theorem C6_set_bucket_range_error_witness :
    (64 : Int) * 4 + initState.offset_coarse > 255 ∧
      set_bucket initState 64 = Except.error PyErr.valueError :=
  ⟨by decide, C6_set_bucket_range_error initState 64 (by decide)⟩

/-- Claim C7: whenever `set_bucket b` succeeds, `get_bucket` on the resulting
state returns `b`. -/
theorem C7_bucket_roundtrip (s : ControllerState) (b : Int) (s' : ControllerState)
    (tr : List ByteWrite) (h : set_bucket s b = Except.ok (s', tr)) :
    get_bucket s' = b := by
  rw [set_bucket_eq] at h
  by_cases hc : b * 4 + s.offset_coarse > 255
  · rw [if_pos hc] at h
    simp at h
  · rw [if_neg hc] at h
    simp only [Except.ok.injEq, Prod.mk.injEq] at h
    rw [← h.1]
    rfl

theorem C7_bucket_roundtrip_witness :
    get_bucket { initState with target_bucket := 3 } = 3 :=
  C7_bucket_roundtrip initState 3 { initState with target_bucket := 3 } [(12, 5)] rfl

/-- Claim C10: the mode table has no key `"delay"`, so `write_window_raw`
raises a `KeyError` on every input before any hardware write. -/
theorem C10_write_window_raw_keyerror (s : ControllerState) (v : Int) :
    mode_dict "delay" = none ∧ write_window_raw s v = Except.error PyErr.keyError :=
  ⟨rfl, rfl⟩

/-- The controller state after `set_bucket 1` from the reset state. -/
def bucketOneState : ControllerState := { initState with target_bucket := 1 }

/-- Claim C2, evaluated at the failing input: with stored bucket 1,
`set_offset_coarse 3` passes the combined range check but writes the byte `3`
(the bare coarse offset) under mode code 5, not the combined byte
`1*4 + 3 = 7` that the claim (and `set_bucket`'s encoding of the same mode
register) requires. -/
theorem C2_coarse_write_eval :
    set_offset_coarse bucketOneState 3 =
      Except.ok ({ bucketOneState with offset_coarse := 3 }, [(3, 5)]) ∧
    (3 : Int) ≠ bucketOneState.target_bucket * 4 + 3 :=
  ⟨rfl, by decide⟩

/-- A reachable controller state with phase counter 300 (reached from the
reset state by `set_offset_fine 255` then `set_offset_fine 300`). -/
def phase300State : ControllerState :=
  { initState with offset_fine := 300, current_phase_counter := 300 }

/-- Claim C1 counterexample: from a state with phase counter 300, the call
`set_offset_fine 0` has `|delta| = 300 > 255`, which the claim says must be
rejected, yet the call succeeds (the range check is one-sided). -/
theorem C1_counterexample :
    (set_offset_fine phase300State 0).toOption.isSome = true ∧
      |(0 : Int) - phase300State.current_phase_counter| > 255 :=
  ⟨rfl, by decide⟩

/-- Claim C1 (amended): `set_offset_fine target` raises a `ValueError` if and
only if `target < 0` or `target - current_phase_counter > 255`; the bound is
enforced only on positive deltas. The check precedes every write and every
mutation, so on failure no write is recorded and no new state is produced:
the caller keeps the prior state. -/
theorem C1_offset_fine_range_iff (s : ControllerState) (target : Int) :
    set_offset_fine s target = Except.error PyErr.valueError ↔
      (target < 0 ∨ target - s.current_phase_counter > 255) := by
  rw [set_offset_fine_eq]
  by_cases h : target < 0 ∨ target - s.current_phase_counter > 255
  · simp [h]
  · simp [h]

/-- Claim C3 counterexample: from a state with phase counter 300 (so
`delta = -300` passes the one-sided range check), `set_offset_fine 0` writes
`dec_phase` with data `np.uint8(300) = 44`, not the magnitude `300` the claim
states. -/
theorem C3_counterexample :
    set_offset_fine phase300State 0 =
      Except.ok ({ phase300State with offset_fine := 0, current_phase_counter := 0 },
        [(1, 4), (44, 2)], 0) ∧
    (44 : Int) ≠ |(0 : Int) - phase300State.current_phase_counter| :=
  ⟨rfl, by decide⟩

/-- Claim C3 (amended): for every target passing the range check, with
`delta = target - current_phase_counter`, `set_offset_fine target` emits
exactly `pause_trig` with data 1 followed by `inc_phase` with data `delta`
(if `delta > 0`) or `dec_phase` with data `|delta| % 256` (if `delta ≤ 0`;
this equals `|delta|` whenever `|delta| ≤ 255`), and no other write; the new
state has `current_phase_counter = offset_fine = target` and the call returns
`target`. Starting from the reset state (phase counter 0),
`set_offset_fine 100` then `set_offset_fine 30` give deltas `+100` and `-70`
and a final `get_offset_fine` of 30. -/
theorem C3_offset_fine_success (s : ControllerState) (target : Int)
    (h1 : 0 ≤ target) (h2 : target - s.current_phase_counter ≤ 255) :
    (set_offset_fine s target =
      Except.ok ({ s with offset_fine := target, current_phase_counter := target },
        [(1, 4),
         if target - s.current_phase_counter > 0 then
           (target - s.current_phase_counter, 1)
         else
           (|target - s.current_phase_counter| % 256, 2)], target)) ∧
    (∃ s1 s2 : ControllerState,
      set_offset_fine initState 100 = Except.ok (s1, [(1, 4), (100, 1)], 100) ∧
      set_offset_fine s1 30 = Except.ok (s2, [(1, 4), (70, 2)], 30) ∧
      get_offset_fine s2 = 30) := by
  constructor
  · have hno : ¬(target < 0 ∨ target - s.current_phase_counter > 255) := by
      omega
    rw [set_offset_fine_eq, if_neg hno]
    by_cases hd : target - s.current_phase_counter > 0
    · simp only [if_pos hd]
      have : uint8 (target - s.current_phase_counter) = target - s.current_phase_counter :=
        Int.emod_eq_of_lt (le_of_lt hd) (by omega)
      rw [this]
    · simp only [if_neg hd]
      have : -(target - s.current_phase_counter) = |target - s.current_phase_counter| :=
        (abs_of_nonpos (not_lt.1 hd)).symm
      rw [uint8, this]
  · exact ⟨{ initState with offset_fine := 100, current_phase_counter := 100 },
      { initState with offset_fine := 30, current_phase_counter := 30 },
      rfl, rfl, rfl⟩

theorem C3_offset_fine_success_witness :
    set_offset_fine initState 100 =
      Except.ok ({ initState with offset_fine := 100, current_phase_counter := 100 },
        [(1, 4),
         if (100 : Int) - initState.current_phase_counter > 0 then
           ((100 : Int) - initState.current_phase_counter, 1)
         else
           (|(100 : Int) - initState.current_phase_counter| % 256, 2)], 100) :=
  (C3_offset_fine_success initState 100 (by decide) (by decide)).1

/-- The 8 bits of `n`, least-significant-first, are its `testBit` values. -/
theorem unpackbitsLE_testBit (n : Nat) :
    unpackbitsLE n = (List.range 8).map (fun b => if n.testBit b then 1 else 0) := by
  unfold unpackbitsLE
  apply List.map_congr_left
  intro b _
  rw [Nat.testBit_to_div_mod]
  rcases Nat.mod_two_eq_zero_or_one (n / 2 ^ b) with h | h <;> simp [h]

/-- The low four of the 8 LSB-first bits of `n` are the `testBit` values at
positions 0–3. -/
theorem unpackbitsLE_take4 (n : Nat) :
    (unpackbitsLE n).take 4 = (List.range 4).map (fun b => if n.testBit b then 1 else 0) := by
  rw [unpackbitsLE_testBit]
  rfl

/-- Claim C8 counterexample: at `data = 0`, `mode = 0`, the emitted GPIO
action sequence is not the claimed one that holds the strobe pin low for a
settle time after the final transition — `_write_byte` returns immediately
after driving strobe low, with no third sleep. -/
theorem C8_counterexample :
    write_byte_gpio default_pins 0 0 ≠
      [GpioEvent.output (pin_list default_pins)
         (unpackbitsLE 0 ++ (unpackbitsLE 0).take 4),
       GpioEvent.sleep,
       GpioEvent.outputPin default_pins.strobe 1,
       GpioEvent.sleep,
       GpioEvent.outputPin default_pins.strobe 0,
       GpioEvent.sleep] := by
  decide

/-- Claim C8 (amended): for a data byte and a mode value fitting the four mode
lines, `_write_byte` asserts in one output call the 12-element level vector of
the 8 bits of `data` least-significant-first followed by the low 4 bits of
`mode` least-significant-first, on the pins `d0..d7` then `mode0..mode3`;
it then sleeps one settle time, drives strobe high, sleeps one settle time and
drives strobe low — without holding after the final transition. -/
theorem C8_write_byte_sequence (p : PinConfig) (data mode : Int)
    (hd0 : 0 ≤ data) (hd1 : data < 256) (hm0 : 0 ≤ mode) (hm1 : mode < 16) :
    write_byte_gpio p data mode =
      [GpioEvent.output [p.d0, p.d1, p.d2, p.d3, p.d4, p.d5, p.d6, p.d7,
          p.mode0, p.mode1, p.mode2, p.mode3]
         ((List.range 8).map (fun b => if data.toNat.testBit b then 1 else 0) ++
          (List.range 4).map (fun b => if mode.toNat.testBit b then 1 else 0)),
       GpioEvent.sleep,
       GpioEvent.outputPin p.strobe 1,
       GpioEvent.sleep,
       GpioEvent.outputPin p.strobe 0] := by
  have hud : uint8 data = data := Int.emod_eq_of_lt hd0 (by omega)
  have hum : uint8 mode = mode := Int.emod_eq_of_lt hm0 (by omega)
  simp only [write_byte_gpio, hud, hum, unpackbitsLE_testBit, unpackbitsLE_take4]
  rfl

theorem C8_write_byte_sequence_witness :
    write_byte_gpio default_pins 171 6 =
      [GpioEvent.output [default_pins.d0, default_pins.d1, default_pins.d2,
          default_pins.d3, default_pins.d4, default_pins.d5, default_pins.d6,
          default_pins.d7, default_pins.mode0, default_pins.mode1,
          default_pins.mode2, default_pins.mode3]
         ((List.range 8).map (fun b => if (171 : Int).toNat.testBit b then 1 else 0) ++
          (List.range 4).map (fun b => if (6 : Int).toNat.testBit b then 1 else 0)),
       GpioEvent.sleep,
       GpioEvent.outputPin default_pins.strobe 1,
       GpioEvent.sleep,
       GpioEvent.outputPin default_pins.strobe 0] :=
  C8_write_byte_sequence default_pins 171 6 (by decide) (by decide) (by decide) (by decide)

/-- Claim C9: `set_laser_trig` stores bit 1 exactly when the lowercased input
contains `"coin"` and bit 0 otherwise, writes that single bit under mode code
7 (`laser_trig_source`), never raises, and `get_laser_trig` returns the
canonical string for the stored bit; in particular `"coincidence_mode"` maps
to COINCIDENCE and `"mrf"` maps to MRF. -/
theorem C9_laser_trig_select (s : ControllerState) (source : List Char) :
    (set_laser_trig s source =
      Except.ok ({ s with
          laser_trig := if strContains "coin".data (pyLower source) then 1 else 0 },
        [((if strContains "coin".data (pyLower source) then 1 else 0 : Int), 7)])) ∧
    (get_laser_trig { s with
        laser_trig := if strContains "coin".data (pyLower source) then 1 else 0 } =
      if strContains "coin".data (pyLower source) then "COINCIDENCE" else "MRF") ∧
    (set_laser_trig initState "coincidence_mode".data =
      Except.ok ({ initState with laser_trig := 1 }, [(1, 7)])) ∧
    (get_laser_trig { initState with laser_trig := 1 } = "COINCIDENCE") ∧
    (set_laser_trig initState "mrf".data =
      Except.ok ({ initState with laser_trig := 0 }, [(0, 7)])) ∧
    (get_laser_trig { initState with laser_trig := 0 } = "MRF") := by
  refine ⟨set_laser_trig_eq s source, ?_, rfl, rfl, rfl, rfl⟩
  cases hsc : strContains "coin".data (pyLower source) <;>
    simp [get_laser_trig, hsc]

/-! ### The argmin scan: first index of minimal value -/

theorem argminFold_append {α : Type} [LinearOrder α] (f : Nat → α) (l : List Nat)
    (x b : Nat) :
    argminFold f (l ++ [x]) b =
      if f x < f (argminFold f l b) then x else argminFold f l b := by
  simp [argminFold, List.foldl_append]

/-- Scanning `f 0, …, f (n-1)` with a strict-improvement fold from index 0
yields an index below `n` whose value is minimal, and which is strictly better
than every earlier index (the first minimum wins ties). -/
theorem argminFold_range_firstMin {α : Type} [LinearOrder α] (f : Nat → α) :
    ∀ n, 0 < n →
      argminFold f (List.range n) 0 < n ∧
      (∀ j, j < n → f (argminFold f (List.range n) 0) ≤ f j) ∧
      (∀ j, j < argminFold f (List.range n) 0 → f (argminFold f (List.range n) 0) < f j) := by
  intro n
  induction n with
  | zero => intro h; exact absurd h (lt_irrefl 0)
  | succ m ih =>
    intro _
    rcases Nat.eq_zero_or_pos m with hm | hm
    · subst hm
      have h0 : argminFold f (List.range 1) 0 = 0 := by
        have hr : List.range 1 = [0] := rfl
        simp [argminFold, hr]
      rw [h0]
      refine ⟨Nat.one_pos, ?_, ?_⟩
      · intro j hj
        have hj0 : j = 0 := by omega
        subst hj0
        exact le_refl _
      · intro j hj
        exact absurd hj (Nat.not_lt_zero j)
    · obtain ⟨ihlt, ihle, ihfirst⟩ := ih hm
      have hstep : argminFold f (List.range (m + 1)) 0 =
          if f m < f (argminFold f (List.range m) 0) then m
          else argminFold f (List.range m) 0 := by
        rw [List.range_succ, argminFold_append]
      by_cases hc : f m < f (argminFold f (List.range m) 0)
      · rw [hstep, if_pos hc]
        refine ⟨Nat.lt_succ_self m, ?_, ?_⟩
        · intro j hj
          rcases Nat.lt_succ_iff_lt_or_eq.1 hj with h | h
          · exact le_of_lt (lt_of_lt_of_le hc (ihle j h))
          · subst h
            exact le_refl _
        · intro j hj
          exact lt_of_lt_of_le hc (ihle j hj)
      · rw [hstep, if_neg hc]
        push_neg at hc
        refine ⟨lt_trans ihlt (Nat.lt_succ_self m), ?_, ihfirst⟩
        intro j hj
        rcases Nat.lt_succ_iff_lt_or_eq.1 hj with h | h
        · exact ihle j h
        · subst h
          exact hc

/-- Claim C5: `set_window delay` selects the index minimising the distance of
the table entry to the requested delay, with the lowest index winning ties;
it writes that index under mode code 6 (`window`), stores the achieved table
value (not the request), and `get_window` then returns the achieved value.
There is no error path. -/
theorem C5_set_window_nearest (s : ControllerState) (delay : Int) :
    (set_window s delay =
      Except.ok ({ s with window := (delay_array.getD (window_index delay) 0 : Int) },
        [((window_index delay : Int), 6)])) ∧
    window_index delay < 256 ∧
    (∀ j, j < 256 →
      |(delay_array.getD (window_index delay) 0 : Int) - delay| ≤
        |(delay_array.getD j 0 : Int) - delay|) ∧
    (∀ j, j < window_index delay →
      |(delay_array.getD (window_index delay) 0 : Int) - delay| <
        |(delay_array.getD j 0 : Int) - delay|) ∧
    get_window { s with window := (delay_array.getD (window_index delay) 0 : Int) } =
      (delay_array.getD (window_index delay) 0 : Int) := by
  obtain ⟨h1, h2, h3⟩ := argminFold_range_firstMin (windowKey delay) 256 (by omega)
  exact ⟨set_window_eq s delay, h1, fun j hj => h2 j hj, fun j hj => h3 j hj, rfl⟩

theorem C5_set_window_nearest_witness :
    (set_window initState 50 =
      Except.ok ({ initState with
          window := (delay_array.getD (window_index 50) 0 : Int) },
        [((window_index 50 : Int), 6)])) ∧
    window_index 50 < 256 ∧
    (∀ j, j < 256 →
      |(delay_array.getD (window_index 50) 0 : Int) - 50| ≤
        |(delay_array.getD j 0 : Int) - 50|) ∧
    (∀ j, j < window_index 50 →
      |(delay_array.getD (window_index 50) 0 : Int) - 50| <
        |(delay_array.getD j 0 : Int) - 50|) ∧
    get_window { initState with window := (delay_array.getD (window_index 50) 0 : Int) } =
      (delay_array.getD (window_index 50) 0 : Int) :=
  C5_set_window_nearest initState 50

end RPiCoincidence
